import Mathlib

/-
  Verification of the SWORD bit-vector solver interface against its sources:
  the public header libsword.h / SwordOpcode.h / libmodule.h, the demo
  programs, and the CardinalityLessThan propagator module.

  Boolean-engine values are embedded shallowly: variables are Nat indices,
  a partial assignment is a function to a three-valued lbool, and module
  callbacks become pure functions of that assignment.
-/

set_option maxHeartbeats 1000000

namespace SWORD

/-- Three-valued boolean, mirroring lbool with values l_True, l_False, l_Undefined
from the boolean engine's SolverTypes. -/
inductive Lbool : Type
  | l_True
  | l_False
  | l_Undefined
deriving DecidableEq, Repr

/-- A boolean literal, mirroring Lit: a decision-variable index together with a
polarity (sign = true meaning the positive literal). -/
structure Lit : Type where
  var : Nat
  sign : Bool
deriving DecidableEq, Repr

/-- Literal negation, mirroring the C++ operator~ on Lit: same variable,
opposite polarity. -/
def Lit.neg (l : Lit) : Lit := ⟨l.var, !l.sign⟩

/-- Complement of a three-valued value; l_Undefined is its own complement. -/
def Lbool.negL : Lbool → Lbool
  | .l_True => .l_False
  | .l_False => .l_True
  | .l_Undefined => .l_Undefined

/-- The boolean engine's current partial assignment: a three-valued value per
boolean variable. -/
def Assignment : Type := Nat → Lbool

/-- SwordModule::getValue — the value of a literal under the current partial
assignment: the variable's value for a positive literal, its complement for a
negated one. -/
def getValue (σ : Assignment) (l : Lit) : Lbool :=
  if l.sign then σ l.var else (σ l.var).negL

/-- The boolean test getValue(lit) == l_True used by
CardinalityLessThan::propagate when collecting the reason set. -/
def isTrueLit (σ : Assignment) (l : Lit) : Bool :=
  match getValue σ l with
  | .l_True => true
  | _ => false

/-- The boolean test getValue(lit) == l_Undefined used by
CardinalityLessThan::propagate when looking for still-free literals. -/
def isUndefLit (σ : Assignment) (l : Lit) : Bool :=
  match getValue σ l with
  | .l_Undefined => true
  | _ => false

/-- SwordModule::isFree — true while the literal's variable is unassigned. -/
def isFree (σ : Assignment) (l : Lit) : Bool := isUndefLit σ l

/-- SwordModule::makeConflict. Its implementation is not under src/;
libmodule.h documents it as "returns a clause suitable to be returned by
propagate; adds _module->_enableLit to conflict". It appends the module's
enable literal to the given conflict set. -/
def makeConflict (enableLit : Lit) (conflict : List Lit) : List Lit :=
  conflict ++ [enableLit]

/-- The clause that claim C3 describes: the conflict set augmented with the
NEGATION of the enable literal. Kept as a separate definition, following the
claim's words, to be compared with makeConflict. -/
def makeConflictSpec (enableLit : Lit) (conflict : List Lit) : List Lit :=
  conflict ++ [enableLit.neg]

/-- The reason set built by CardinalityLessThan::propagate: the declared
literals currently assigned true, in declaration order. -/
def trueLits (σ : Assignment) (vars : List Lit) : List Lit :=
  vars.filter (isTrueLit σ)

/-- The declared literals whose value is currently l_Undefined, in declaration
order. -/
def freeLits (σ : Assignment) (vars : List Lit) : List Lit :=
  vars.filter (isUndefLit σ)

/-- CardinalityLessThan::decide — walks the declared literal list in order and
returns the negation of the first literal that is still free; none models the
lit_Undef result when no declared literal is free. -/
def CardinalityLessThan.decide (σ : Assignment) : List Lit → Option Lit
  | [] => none
  | l :: rest =>
      if isFree σ l then some l.neg else CardinalityLessThan.decide σ rest

/-- CardinalityLessThan::propagate from the module header
(CardinalityLessThan.hpp): builds the reason set of currently-true declared
literals; when reason.size() >= maxOnes it returns makeConflict(reason),
otherwise it returns NULL (none). -/
def CardinalityLessThan.propagate (enableLit : Lit) (vars : List Lit)
    (maxOnes : Nat) (σ : Assignment) : Option (List Lit) :=
  let reason := trueLits σ vars
  if maxOnes ≤ reason.length then some (makeConflict enableLit reason) else none

/-- One inferLiteral(lit, reason) call performed by a module during
propagate. -/
structure InferCall : Type where
  lit : Lit
  reason : List Lit
deriving DecidableEq, Repr

/-- CardinalityLessThan::propagate as written in the demo program (the variant
with the inference branch). The first component records the inferLiteral calls
performed, in order. The second component is the function result:
some (some c) models "return makeConflict(reason)", some none models
"return NULL", and none models the branch that performs the inferLiteral calls
and then reaches the closing brace of the non-void function without any return
statement (the C++ return value is undefined on that path). -/
def CardinalityLessThanDemo.propagate (enableLit : Lit) (vars : List Lit)
    (maxOnes : Nat) (σ : Assignment) :
    List InferCall × Option (Option (List Lit)) :=
  let reason := trueLits σ vars
  if maxOnes ≤ reason.length then
    ([], some (some (makeConflict enableLit reason)))
  else if reason.length + 1 = maxOnes then
    ((freeLits σ vars).map (fun l => ⟨l.neg, reason⟩), none)
  else
    ([], some none)

/-- A concrete enable literal used in witnesses. -/
def enable0 : Lit := ⟨100, true⟩

/-- Concrete literal over variable 0. -/
def v0 : Lit := ⟨0, true⟩

/-- Concrete literal over variable 1. -/
def v1 : Lit := ⟨1, true⟩

/-- A concrete two-literal declared set. -/
def varsW : List Lit := [v0, v1]

/-- The all-unassigned partial assignment. -/
def sigmaU : Assignment := fun _ => Lbool.l_Undefined

/-- A partial assignment with variable 0 true and everything else free. -/
def sigma0 : Assignment := fun n => if n = 0 then Lbool.l_True else Lbool.l_Undefined

/-- The eight literals of an 8-bit variable, as declared by the demo's
cardinality module over x. -/
def varsX : List Lit := (List.range 8).map (fun i => ⟨i, true⟩)

/-- A partial assignment with variables 0, 1, 2 true and everything else
free. -/
def sigma3 : Assignment := fun n => if n < 3 then Lbool.l_True else Lbool.l_Undefined

/-- Truth of a literal under a total boolean assignment of the variables. -/
def litHolds (v : Nat → Bool) (l : Lit) : Prop := v l.var = l.sign

/-- All literals of a clause hold simultaneously under an assignment. -/
def allTrue (v : Nat → Bool) (c : List Lit) : Prop := ∀ l ∈ c, litHolds v l

/-- The constraint a conflict clause places on total assignments, following the
spec's reading of a conflict (a set of literals whose conjunction is
infeasible): an assignment is permitted exactly when not all of the clause's
literals hold under it. -/
def permits (c : List Lit) (v : Nat → Bool) : Prop := ¬ allTrue v c

/-- The intended meaning of a module conflict: if the module's enable literal
holds, then the observed conflict literals cannot all be true. -/
def enabledGuard (e : Lit) (lits : List Lit) (v : Nat → Bool) : Prop :=
  litHolds v e → ¬ allTrue v lits

instance (v : Nat → Bool) (l : Lit) : Decidable (litHolds v l) := by
  unfold litHolds
  infer_instance

instance (v : Nat → Bool) (c : List Lit) : Decidable (allTrue v c) := by
  unfold allTrue
  exact List.decidableBAll _ c

instance (c : List Lit) (v : Nat → Bool) : Decidable (permits c v) := by
  unfold permits
  infer_instance

instance (e : Lit) (lits : List Lit) (v : Nat → Bool) :
    Decidable (enabledGuard e lits v) := by
  unfold enabledGuard
  infer_instance

/-- The enable literal used in the C3 counterexample. -/
def eC3 : Lit := ⟨1, true⟩

/-- The one-literal conflict set used in the C3 counterexample. -/
def litsC3 : List Lit := [⟨0, true⟩]

/-- A total assignment with variable 0 true and every other variable false; in
particular the enable variable 1 is false (module disabled). -/
def vC3 : Nat → Bool := fun n => n == 0

/--
The incremental solve controller's assumption/assertion state. Modelled from
the spec: the sword implementation behind addAssertion/addAssumption/solve is
not under src/; libsword.h only declares them, documenting addAssumption as
"Like addAssertion but only valid for a single call to the solver". Constraints
are tracked at the level of the asserted signals' top-level literals.
-/
structure SolverState : Type where
  assertions : List Lit
  assumptions : List Lit
deriving DecidableEq, Repr

/-- sword::addAssertion — permanently records the unit constraint. Modelled
from the spec: the implementation is not under src/. -/
def sword.addAssertion (st : SolverState) (l : Lit) : SolverState :=
  { st with assertions := st.assertions ++ [l] }

/-- sword::addAssumption — records a literal for the next solve call only.
Modelled from the spec: the implementation is not under src/. -/
def sword.addAssumption (st : SolverState) (l : Lit) : SolverState :=
  { st with assumptions := st.assumptions ++ [l] }

/-- Modelled from the spec: the constraint set a solve() call works under —
all permanent assertions plus the assumptions queued for this call. -/
def solveConstraints (st : SolverState) : List Lit :=
  st.assertions ++ st.assumptions

/-- Modelled from the spec: the controller state after a solve() call returns
with outcome result (true = SAT, false = UNSAT): the assumption set is cleared
regardless of the outcome, while assertions persist. -/
def postSolve (st : SolverState) (_result : Bool) : SolverState :=
  { st with assumptions := [] }

/-- SWORD_TRUE from libsword.h, as returned by getVariableAssignment. -/
def SWORD_TRUE : Int := 1

/-- SWORD_FALSE from libsword.h. -/
def SWORD_FALSE : Int := 0

/-- SWORD_DONTCARE from libsword.h, the don't-care marker. -/
def SWORD_DONTCARE : Int := -1

/-- Modelled from the spec: the conversion getVariableAssignment applies per
bit, turning the bit's three-valued assignment into the caller-visible value
(Undefined becomes the don't-care marker). The sword implementation is not
under src/; the SWORD_TRUE/SWORD_FALSE/SWORD_DONTCARE constants are from
libsword.h. -/
def toSwordValue : Lbool → Int
  | .l_True => SWORD_TRUE
  | .l_False => SWORD_FALSE
  | .l_Undefined => SWORD_DONTCARE

/-- Modelled from the spec: sword::getVariableAssignment for a variable
signal, reading back the per-bit three-valued assignment of the signal's bits.
bits is that per-bit assignment in LSB-first order (index 0 the
least-significant bit, the last entry the most-significant / sign bit, the
convention the demo relies on via solution.back()). -/
def getVariableAssignment (bits : List Lbool) : List Int :=
  bits.map toSwordValue

/-- Modelled from the spec: the bit-level semantics of sword::addSignExtend
(opcode SIGN_EXTEND) on an LSB-first bit sequence — the implementation is not
under src/; libsword.h declares it and SwordOpcode.h documents SIGN_EXTEND as
concatenation with copies of the sign for positive/negative numbers. Each of
the n extension bits aliases the sign bit, the last bit in LSB-first order. -/
def signExtendBits (bs : List Bool) (n : Nat) : List Bool :=
  bs ++ List.replicate n (bs.getLastD false)

/-- A Signal as far as extraction is concerned: its bit-width. -/
structure Sig : Type where
  width : Nat
deriving DecidableEq, Repr

/-- Error text reported for degenerate extract bounds. -/
def extractBoundsError : String := "addExtract: invalid bounds"

/-- Modelled from the spec: sword::addExtract — the implementation is not
under src/; libsword.h documents it as extracting the signal [a, b) from a
given signal [0, n). Given the current term graph (an arena of signals) and a
source signal of width w, valid bounds a < b ≤ w append a fresh signal of
width b - a and return it; degenerate bounds (a ≥ b or b > w) report a
construction error and leave the term graph unchanged. -/
def addExtract (g : List Sig) (s : Sig) (a b : Nat) :
    List Sig × Except String Sig :=
  if a < b ∧ b ≤ s.width then
    (g ++ [⟨b - a⟩], Except.ok ⟨b - a⟩)
  else
    (g, Except.error extractBoundsError)

/-- The OPCODE catalog from SwordOpcode.h, constructors in the enum's
declaration order; OP_UPPER_BOUND just fixes an upper bound for the enum. -/
inductive OPCODE : Type
  | UNKNOWN
  | CONST
  | EQUAL
  | NEQUAL
  | DISTINCT
  | IMPLIES
  | SLT
  | SLE
  | ULT
  | ULE
  | SGT
  | SGE
  | UGT
  | UGE
  | NOT
  | ITE
  | NEG
  | ADD
  | SUB
  | MUL
  | SDIV
  | SREM
  | SMOD
  | UDIV
  | UREM
  | AND
  | NAND
  | OR
  | NOR
  | XOR
  | XNOR
  | LSHL
  | LSHR
  | ASHR
  | RED_OR
  | RED_AND
  | CONCAT
  | EXTRACT
  | REPEAT
  | ROTATE_LEFT
  | ROTATE_RIGHT
  | SELECT
  | STORE
  | SIGN_EXTEND
  | ZERO_EXTEND
  | OP_UPPER_BOUND
deriving DecidableEq, Fintype, Repr

/-- isCommutative from SwordOpcode.h. -/
def isCommutative : OPCODE → Bool
  | .AND | .NAND | .OR | .NOR | .XOR | .XNOR
  | .EQUAL | .NEQUAL | .DISTINCT | .ADD | .MUL => true
  | _ => false

/-- isArithmetic from SwordOpcode.h. -/
def isArithmetic : OPCODE → Bool
  | .AND | .NAND | .OR | .NOR | .XOR | .XNOR
  | .ADD | .MUL | .SUB | .SDIV | .UDIV
  | .SREM | .SMOD | .UREM | .NEG
  | .LSHL | .LSHR | .ASHR | .NOT => true
  | _ => false

/-- isLogical from SwordOpcode.h. -/
def isLogical : OPCODE → Bool
  | .EQUAL | .NEQUAL
  | .UGT | .ULT | .UGE | .ULE
  | .SGT | .SLT | .SGE | .SLE
  | .DISTINCT | .IMPLIES | .RED_OR | .RED_AND => true
  | _ => false

/-- toString from SwordOpcode.h: the display-string switch, transcribed case
by case; its default branch returns "nyi", and NEG and SUB are both listed
with the string "-". -/
def toString : OPCODE → String
  | .EQUAL => "="
  | .NEQUAL => "!="
  | .IMPLIES => "=>"
  | .SGT => ">s"
  | .UGT => ">u"
  | .SLT => "<s"
  | .ULT => "<u"
  | .SGE => ">=s"
  | .UGE => ">=u"
  | .SLE => "<=s"
  | .ULE => "<=u"
  | .NOT => "not"
  | .NEG => "-"
  | .ITE => "ite"
  | .AND => "and"
  | .OR => "or"
  | .XOR => "xor"
  | .ADD => "+"
  | .SUB => "-"
  | .MUL => "*"
  | .SDIV => "/s"
  | .UDIV => "/u"
  | .SMOD => "%"
  | .SREM => "rem s"
  | .UREM => "rem u"
  | .LSHL => "<<"
  | .LSHR => ">>"
  | .ASHR => ">>a"
  | .EXTRACT => "extract"
  | .SIGN_EXTEND => "sgn_ext"
  | .ZERO_EXTEND => "zero_ext"
  | .ROTATE_LEFT => "rot_l"
  | .ROTATE_RIGHT => "rot_r"
  | .REPEAT => "rep"
  | .CONCAT => "++"
  | _ => "nyi"

/-- toStringStrict from SwordOpcode.h: the strict display-string switch, which
lists every enum value explicitly (its trailing return "unknown" is
unreachable for catalog values). -/
def toStringStrict : OPCODE → String
  | .UNKNOWN => "UNKNOWN"
  | .CONST => "CONST"
  | .EQUAL => "EQUAL"
  | .NEQUAL => "NEQUAL"
  | .IMPLIES => "IMPLIES"
  | .DISTINCT => "DISTINCT"
  | .SGT => "SGT"
  | .UGT => "UGT"
  | .SLT => "SLT"
  | .ULT => "ULT"
  | .SGE => "SGE"
  | .UGE => "UGE"
  | .SLE => "SLE"
  | .ULE => "ULE"
  | .NOT => "NOT"
  | .NEG => "NEG"
  | .ITE => "ITE"
  | .AND => "AND"
  | .OR => "OR"
  | .XOR => "XOR"
  | .NAND => "NAND"
  | .NOR => "NOR"
  | .XNOR => "XNOR"
  | .ADD => "ADD"
  | .SUB => "SUB"
  | .MUL => "MUL"
  | .SDIV => "SDIV"
  | .UDIV => "UDIV"
  | .SMOD => "SMOD"
  | .SREM => "SREM"
  | .UREM => "UREM"
  | .LSHL => "LSHL"
  | .LSHR => "LSHR"
  | .ASHR => "ASHR"
  | .RED_OR => "RED_OR"
  | .RED_AND => "RED_AND"
  | .EXTRACT => "EXTRACT"
  | .SIGN_EXTEND => "SIGN_EXTEND"
  | .ZERO_EXTEND => "ZERO_EXTEND"
  | .ROTATE_LEFT => "ROTATE_LEFT"
  | .ROTATE_RIGHT => "ROTATE_RIGHT"
  | .REPEAT => "REPEAT"
  | .CONCAT => "CONCAT"
  | .SELECT => "SELECT"
  | .STORE => "STORE"
  | .OP_UPPER_BOUND => "OP_UPPER_BOUND"

theorem isTrueLit_iff (σ : Assignment) (l : Lit) :
    isTrueLit σ l = true ↔ getValue σ l = Lbool.l_True := by
  cases h : getValue σ l <;> simp [isTrueLit, h]

theorem isUndefLit_iff (σ : Assignment) (l : Lit) :
    isUndefLit σ l = true ↔ getValue σ l = Lbool.l_Undefined := by
  cases h : getValue σ l <;> simp [isUndefLit, h]

theorem getValue_neg (σ : Assignment) (l : Lit) :
    getValue σ l.neg = (getValue σ l).negL := by
  cases l with
  | mk v s =>
      cases s <;> cases h : σ v <;> simp [getValue, Lit.neg, Lbool.negL, h]

theorem mem_trueLits (σ : Assignment) (vars : List Lit) (l : Lit) :
    l ∈ trueLits σ vars ↔ l ∈ vars ∧ getValue σ l = Lbool.l_True := by
  simp [trueLits, List.mem_filter, isTrueLit_iff]

/-- C1: CardinalityLessThan::propagate returns a conflict if and only if at
least maxOnes declared literals are currently true; the conflict returned is
makeConflict applied to exactly the declared literals observed true; and any
assignment at which the module reports no conflict has at most maxOnes true
declared literals, so a satisfying assignment accepted by the search respects
the bound. -/
theorem cardinality_propagate_conflict_iff (e : Lit) (vars : List Lit)
    (maxOnes : Nat) (σ : Assignment) :
    ((∃ c, CardinalityLessThan.propagate e vars maxOnes σ = some c) ↔
        maxOnes ≤ (trueLits σ vars).length)
    ∧ (∀ c, CardinalityLessThan.propagate e vars maxOnes σ = some c →
        c = makeConflict e (trueLits σ vars))
    ∧ (∀ l, l ∈ trueLits σ vars ↔ l ∈ vars ∧ getValue σ l = Lbool.l_True)
    ∧ (CardinalityLessThan.propagate e vars maxOnes σ = none →
        (trueLits σ vars).length ≤ maxOnes) := by
  by_cases h : maxOnes ≤ (trueLits σ vars).length
  · refine ⟨?_, ?_, fun l => mem_trueLits σ vars l, ?_⟩ <;>
      simp [CardinalityLessThan.propagate, h]
  · refine ⟨?_, ?_, fun l => mem_trueLits σ vars l, ?_⟩ <;>
      simp [CardinalityLessThan.propagate, h]
    omega

/-- Witness for C1 at a concrete input: with maxOnes = 1 and variable 0 true,
the module reports a conflict. -/
theorem cardinality_propagate_conflict_iff_witness :
    ∃ c, CardinalityLessThan.propagate enable0 varsW 1 sigma0 = some c :=
  (cardinality_propagate_conflict_iff enable0 varsW 1 sigma0).1.mpr (by decide)

/-- C2 counterexample: with maxOnes = 1 and every declared literal unassigned,
the count of true declared literals equals maxOnes - 1, and the demo propagate
performs an inferLiteral call whose justification set is EMPTY — refuting the
claim that every such call carries a non-empty justification. -/
theorem cardinality_infer_empty_reason_cex :
    trueLits sigmaU [v0] = []
    ∧ (CardinalityLessThanDemo.propagate enable0 [v0] 1 sigmaU).1
        = [⟨Lit.neg v0, []⟩]
    ∧ ¬ (∀ ic ∈ (CardinalityLessThanDemo.propagate enable0 [v0] 1 sigmaU).1,
          ic.reason ≠ []) := by
  refine ⟨rfl, rfl, by decide⟩

/-- C2 (amended): whenever the count of currently-true declared literals equals
maxOnes - 1, the demo propagate calls inferLiteral on the negation of every
declared literal still unassigned, each justified by the set of currently-true
declared literals — a set that is non-empty whenever maxOnes ≥ 2 — and it
produces no conflict clause; however the branch reaches the end of the
function without executing a return statement, so the C++ return value is
undefined there (result marker none). -/
theorem cardinality_infer_at_threshold (e : Lit) (vars : List Lit)
    (maxOnes : Nat) (σ : Assignment)
    (h : (trueLits σ vars).length + 1 = maxOnes) :
    (CardinalityLessThanDemo.propagate e vars maxOnes σ).1
        = (freeLits σ vars).map (fun l => ⟨l.neg, trueLits σ vars⟩)
    ∧ (2 ≤ maxOnes → trueLits σ vars ≠ [])
    ∧ (CardinalityLessThanDemo.propagate e vars maxOnes σ).2 = none := by
  have hnot : ¬ maxOnes ≤ (trueLits σ vars).length := by omega
  refine ⟨?_, ?_, ?_⟩
  · simp [CardinalityLessThanDemo.propagate, hnot, h]
  · intro h2
    have hpos : 0 < (trueLits σ vars).length := by omega
    exact List.length_pos.mp hpos
  · simp [CardinalityLessThanDemo.propagate, hnot, h]

/-- Witness for the amended C2 at a concrete input: maxOnes = 2 with exactly
one declared literal true. -/
theorem cardinality_infer_at_threshold_witness :
    (CardinalityLessThanDemo.propagate enable0 varsW 2 sigma0).1
        = (freeLits sigma0 varsW).map (fun l => ⟨l.neg, trueLits sigma0 varsW⟩)
    ∧ (2 ≤ 2 → trueLits sigma0 varsW ≠ [])
    ∧ (CardinalityLessThanDemo.propagate enable0 varsW 2 sigma0).2 = none :=
  cardinality_infer_at_threshold enable0 varsW 2 sigma0 (by decide)

/-- C4: CardinalityLessThan::decide returns the negation of the first declared
literal that is currently free, in declaration order (none — lit_Undef — when
no declared literal is free), and every literal it returns is over a variable
that is currently unassigned and belongs to the declared set. -/
theorem cardinality_decide_first_free (vars : List Lit) (σ : Assignment) :
    CardinalityLessThan.decide σ vars = (vars.find? (isFree σ)).map Lit.neg
    ∧ (∀ m, CardinalityLessThan.decide σ vars = some m →
        getValue σ m = Lbool.l_Undefined ∧ m.var ∈ vars.map Lit.var)
    ∧ (CardinalityLessThan.decide σ vars = none ↔
        ∀ l ∈ vars, isFree σ l = false) := by
  have heq : CardinalityLessThan.decide σ vars
      = (vars.find? (isFree σ)).map Lit.neg := by
    induction vars with
    | nil => rfl
    | cons l rest ih =>
        by_cases h : isFree σ l
        · simp [CardinalityLessThan.decide, h, List.find?_cons_of_pos]
        · have h2 : isFree σ l = false := by
            cases h3 : isFree σ l
            · rfl
            · exact absurd h3 h
          simp [CardinalityLessThan.decide, h2, List.find?_cons_of_neg, ih]
  refine ⟨heq, ?_, ?_⟩
  · intro m hm
    rw [heq] at hm
    rcases Option.map_eq_some.mp hm with ⟨l, hfind, hneg⟩
    have hfree : isFree σ l = true := List.find?_some hfind
    have hmem : l ∈ vars := List.mem_of_find?_eq_some hfind
    have hval : getValue σ l = Lbool.l_Undefined :=
      (isUndefLit_iff σ l).mp hfree
    subst hneg
    constructor
    · rw [getValue_neg, hval]
      rfl
    · exact List.mem_map.mpr ⟨l, hmem, rfl⟩
  · clear heq
    induction vars with
    | nil => simp [CardinalityLessThan.decide]
    | cons l rest ih =>
        by_cases h : isFree σ l
        · simp [CardinalityLessThan.decide, h]
        · have h2 : isFree σ l = false := by
            cases h3 : isFree σ l
            · rfl
            · exact absurd h3 h
          simp [CardinalityLessThan.decide, h2, ih]

/-- Witness for C4 at a concrete input: with variable 0 assigned and variable 1
free, decide returns the negation of the literal over variable 1, whose
variable is free and declared. -/
theorem cardinality_decide_first_free_witness :
    getValue sigma0 (Lit.neg v1) = Lbool.l_Undefined
    ∧ (Lit.neg v1).var ∈ varsW.map Lit.var :=
  (cardinality_decide_first_free varsW sigma0).2.1 (Lit.neg v1) (by decide)

/-- C10: at a search state with exactly maxOnes - 1 = 3 of the module's eight
declared literals true, the demo propagate takes the inference branch, performs
a non-empty sequence of inferLiteral calls, and reaches the end of the
non-void function without executing any return statement — the result marker
is none, i.e. no defined Clause* value is returned on that path. -/
theorem propagate_missing_return :
    (CardinalityLessThanDemo.propagate enable0 varsX 4 sigma3).2 = none
    ∧ (CardinalityLessThanDemo.propagate enable0 varsX 4 sigma3).1 ≠ [] := by
  refine ⟨rfl, by decide⟩

/-- C3 counterexample: augmenting a conflict set with the NEGATED enable
literal does not express "if this module is enabled, these literals cannot all
be true". At the assignment with variable 0 true and the enable variable
false, the guard holds (the module is disabled) yet the augmented clause
forbids the assignment: its literals — the conflict literal and the negated
enable literal — all hold. -/
theorem makeConflict_negated_enable_cex :
    ¬ (permits (makeConflictSpec eC3 litsC3) vC3 ↔ enabledGuard eC3 litsC3 vC3) := by
  decide

/-- C3 (amended): makeConflict augments the conflict set with the module's
enable literal itself, as libmodule.h documents; reading the resulting clause
the way the spec reads module conflicts — a set of literals whose conjunction
is infeasible — the augmented clause expresses exactly "if this module is
enabled, these literals cannot all be true". -/
theorem makeConflict_enable_semantics (e : Lit) (lits : List Lit) :
    makeConflict e lits = lits ++ [e]
    ∧ ∀ v, permits (makeConflict e lits) v ↔ enabledGuard e lits v := by
  refine ⟨rfl, fun v => ?_⟩
  unfold permits enabledGuard makeConflict
  constructor
  · intro h he hall
    apply h
    intro l hl
    rcases List.mem_append.mp hl with h1 | h2
    · exact hall l h1
    · have : l = e := by simpa using h2
      rw [this]
      exact he
  · intro h hall
    have he : litHolds v e := hall e (by simp)
    exact (h he) (fun l hl => hall l (List.mem_append_left _ hl))

/-- Witness for the amended C3 at a concrete input: under the all-false
assignment the module is disabled and the guard holds, so the augmented
conflict clause permits the assignment. -/
theorem makeConflict_enable_semantics_witness :
    permits (makeConflict eC3 litsC3) (fun _ => false) :=
  ((makeConflict_enable_semantics eC3 litsC3).2 (fun _ => false)).mpr (by decide)

theorem postSolve_foldl_assertions (bs : List Bool) (st : SolverState) :
    (bs.foldl postSolve st).assertions = st.assertions := by
  induction bs generalizing st with
  | nil => rfl
  | cons b rest ih => simpa [List.foldl, postSolve] using ih (postSolve st b)

/-- C5: an assumption literal constrains the next solve() call and is cleared
from the controller state once that call returns, whatever the outcome, while
an asserted literal persists in the assertion list and in the constraint set
of every subsequent solve() call, across any sequence of solve outcomes. -/
theorem assumption_scoped_assertion_persistent (st : SolverState) (l : Lit) :
    l ∈ solveConstraints (sword.addAssumption st l)
    ∧ (∀ b, (postSolve (sword.addAssumption st l) b).assumptions = [])
    ∧ (∀ b, (postSolve (sword.addAssumption st l) b).assertions = st.assertions)
    ∧ (∀ bs : List Bool,
        (bs.foldl postSolve (sword.addAssertion st l)).assertions
          = st.assertions ++ [l])
    ∧ (∀ bs : List Bool,
        l ∈ solveConstraints (bs.foldl postSolve (sword.addAssertion st l))) := by
  refine ⟨?_, fun b => rfl, fun b => rfl, ?_, ?_⟩
  · simp [solveConstraints, sword.addAssumption]
  · intro bs
    simp [postSolve_foldl_assertions, sword.addAssertion]
  · intro bs
    have h : (bs.foldl postSolve (sword.addAssertion st l)).assertions
        = st.assertions ++ [l] := by
      simp [postSolve_foldl_assertions, sword.addAssertion]
    simp [solveConstraints, h]

/-- C6: getVariableAssignment for a signal with w bits returns exactly w
integers, each of them SWORD_TRUE, SWORD_FALSE or the don't-care marker
SWORD_DONTCARE, preserving the LSB-first bit order: entry i is the value of
bit i and the last entry is the value of the most-significant (sign) bit. -/
theorem getVariableAssignment_shape (bits : List Lbool) :
    (getVariableAssignment bits).length = bits.length
    ∧ (∀ x ∈ getVariableAssignment bits,
        x = SWORD_TRUE ∨ x = SWORD_FALSE ∨ x = SWORD_DONTCARE)
    ∧ (∀ i : Nat, (getVariableAssignment bits)[i]? = bits[i]?.map toSwordValue)
    ∧ (getVariableAssignment bits).getLast? = bits.getLast?.map toSwordValue := by
  refine ⟨by simp [getVariableAssignment], ?_, ?_, ?_⟩
  · intro x hx
    rcases List.mem_map.mp hx with ⟨b, _, hb⟩
    cases b <;> simp [toSwordValue, ← hb]
  · intro i
    simp [getVariableAssignment]
  · simp [getVariableAssignment, List.getLast?_map]

/-- Witness for C6 at a concrete input: a two-bit signal with bit 0 true and
bit 1 unconstrained yields the don't-care marker as a member of the result. -/
theorem getVariableAssignment_shape_witness :
    SWORD_DONTCARE = SWORD_TRUE ∨ SWORD_DONTCARE = SWORD_FALSE
      ∨ SWORD_DONTCARE = SWORD_DONTCARE :=
  (getVariableAssignment_shape [Lbool.l_True, Lbool.l_Undefined]).2.1
    SWORD_DONTCARE (by decide)

theorem getLastD_eq_getLast (bs : List Bool) (h : bs ≠ []) :
    bs.getLastD false = bs.getLast h := by
  cases bs with
  | nil => exact absurd rfl h
  | cons b rest => simp [List.getLastD_eq_getLast?, List.getLast?_eq_getLast]

/-- C7: sign extension of a non-empty LSB-first bit sequence of width w by n
bits yields width w + n, keeps the original bits in place, and sets each of
the n extension bits to the sign bit — the most-significant bit, i.e. the
last element in LSB-first order. -/
theorem signExtend_aliases_sign_bit (bs : List Bool) (n : Nat) (h : bs ≠ []) :
    (signExtendBits bs n).length = bs.length + n
    ∧ (signExtendBits bs n).take bs.length = bs
    ∧ ∀ b ∈ (signExtendBits bs n).drop bs.length, b = bs.getLast h := by
  refine ⟨by simp [signExtendBits], ?_, ?_⟩
  · simp [signExtendBits, List.take_left]
  · intro b hb
    rw [signExtendBits, List.drop_left] at hb
    rw [← getLastD_eq_getLast bs h]
    exact List.eq_of_mem_replicate hb

/-- Witness for C7 at a concrete input: sign-extending the two-bit sequence
with sign bit true by two bits gives a sequence of length four. -/
theorem signExtend_aliases_sign_bit_witness :
    (signExtendBits [false, true] 2).length = 2 + 2 :=
  (signExtend_aliases_sign_bit [false, true] 2 (by decide)).1

/-- C8: addExtract with bounds a < b ≤ width succeeds, appending to the term
graph and returning a signal of width b - a; with degenerate bounds (a ≥ b or
b exceeding the width) it reports a construction error and leaves the term
graph unchanged. -/
theorem addExtract_bounds (g : List Sig) (s : Sig) (a b : Nat) :
    (a < b → b ≤ s.width →
      addExtract g s a b = (g ++ [⟨b - a⟩], Except.ok ⟨b - a⟩)
      ∧ ∀ r, (addExtract g s a b).2 = Except.ok r → r.width = b - a)
    ∧ (¬ (a < b ∧ b ≤ s.width) →
      (addExtract g s a b).1 = g
      ∧ ∃ msg, (addExtract g s a b).2 = Except.error msg) := by
  constructor
  · intro h1 h2
    have hc : a < b ∧ b ≤ s.width := ⟨h1, h2⟩
    constructor
    · simp [addExtract, hc]
    · intro r hr
      simp [addExtract, hc] at hr
      rw [← hr]
  · intro hc
    refine ⟨by simp [addExtract, hc], extractBoundsError, by simp [addExtract, hc]⟩

/-- Witness for C8 at concrete inputs: extracting [1, 3) from an 8-bit signal
succeeds with width 2, while extracting [5, 3) leaves the graph unchanged. -/
theorem addExtract_bounds_witness :
    addExtract [] ⟨8⟩ 1 3 = ([⟨2⟩], Except.ok ⟨2⟩)
    ∧ (addExtract [] ⟨8⟩ 5 3).1 = [] :=
  ⟨((addExtract_bounds [] ⟨8⟩ 1 3).1 (by decide) (by decide)).1,
   ((addExtract_bounds [] ⟨8⟩ 5 3).2 (by decide)).1⟩

/-- C9 counterexample: toString maps the catalog opcode NAND to the
placeholder "nyi", and maps the two distinct catalog opcodes NEG and SUB to
the same string "-", so it is neither placeholder-free nor opcode-specific. -/
theorem toString_not_opcode_specific_cex :
    SWORD.toString OPCODE.NAND = "nyi"
    ∧ OPCODE.NAND ≠ OPCODE.OP_UPPER_BOUND
    ∧ OPCODE.NEG ≠ OPCODE.SUB
    ∧ SWORD.toString OPCODE.NEG = SWORD.toString OPCODE.SUB := by
  refine ⟨rfl, by decide, by decide, rfl⟩

/-- C9 (amended): toString returns the placeholder "nyi" exactly for the
opcodes its switch omits — UNKNOWN, CONST, DISTINCT, NAND, NOR, XNOR, RED_OR,
RED_AND, SELECT, STORE and OP_UPPER_BOUND — and collides NEG with SUB on "-";
the strict display function toStringStrict is the opcode-specific one:
distinct opcodes map to distinct strings and no opcode maps to the
placeholder. -/
theorem toStringStrict_opcode_specific :
    (∀ o : OPCODE, SWORD.toString o = "nyi" ↔
        o ∈ [OPCODE.UNKNOWN, OPCODE.CONST, OPCODE.DISTINCT, OPCODE.NAND,
             OPCODE.NOR, OPCODE.XNOR, OPCODE.RED_OR, OPCODE.RED_AND,
             OPCODE.SELECT, OPCODE.STORE, OPCODE.OP_UPPER_BOUND])
    ∧ (∀ o1 o2 : OPCODE, toStringStrict o1 = toStringStrict o2 → o1 = o2)
    ∧ (∀ o : OPCODE, toStringStrict o ≠ "nyi") := by
  refine ⟨by decide, by decide, by decide⟩

/-- Witness for the amended C9 at a concrete input: SELECT is one of the
opcodes toString maps to the placeholder. -/
theorem toStringStrict_opcode_specific_witness :
    SWORD.toString OPCODE.SELECT = "nyi" :=
  (toStringStrict_opcode_specific.1 OPCODE.SELECT).mpr (by decide)

end SWORD
